import Mathlib

/-!
Verification of the exogui game-launching core (`src/back/game/GameLauncher.ts`
and the backend initialization in the unnamed backend main file) against its
natural-language specification.

The TypeScript is shallowly embedded: pure path manipulation becomes pure
string functions, and the launch orchestration becomes a trace semantics in
which spawning a process, writing a log line, opening a dialog and opening a
path externally are effects.  The ambient OS identity (`process.platform`) is
passed as an explicit parameter.  Helper functions of the repository that are
not part of the provided sources (`fixSlashes`, `getFilename`, `createCommand`
from the shared utilities / command-mapping module) are modelled from the
specification; each such definition carries a doc comment saying so.
-/

/-- Value of `process.platform` as far as the launcher distinguishes it:
Windows, Linux, macOS, or any other (unix-like) platform. -/
inductive Platform where
  | win32
  | linux
  | darwin
  | otherUnix
deriving DecidableEq, Repr

/-- Native path separator of a platform (what node `path.sep` is). -/
def Platform.sep : Platform → Char
  | .win32 => '\\'
  | _ => '/'

/-- JS `s.endsWith(p)`: `p` is a suffix of `s`. -/
def strEndsWith (s p : String) : Bool :=
  p.data.isSuffixOf s.data

/-- JS `s.substring(0, s.length - n)`: drop the last `n` characters. -/
def dropRightStr (s : String) (n : Nat) : String :=
  ⟨s.data.take (s.data.length - n)⟩

/-- JS `s.replace(pat, repl)` with a string pattern: replace the first
occurrence of `pat`, or return `s` unchanged when `pat` does not occur. -/
def replaceFirstList (repl : List Char) : List Char → List Char → List Char
  | [], pat => if pat.isEmpty then repl else []
  | c :: rest, pat =>
      if pat.isPrefixOf (c :: rest) then repl ++ (c :: rest).drop pat.length
      else c :: replaceFirstList repl rest pat

/-- String wrapper for `replaceFirstList`. -/
def replaceFirst (s pat repl : String) : String :=
  ⟨replaceFirstList repl.data s.data pat.data⟩

/-- Modelled from the spec: `getFilename` (from the shared utilities module,
absent from the provided sources) returns the filename component of a path,
the part after the last separator, accepting either slash style. -/
def getFilename (p : String) : String :=
  ⟨(p.data.reverse.takeWhile (fun c => c ≠ '/' ∧ c ≠ '\\')).reverse⟩

/-- Modelled from the spec: `fixSlashes` (from the shared utilities module,
absent from the provided sources) accepts either slash style on input and
emits the OS-native separator. -/
def fixSlashes (plat : Platform) (s : String) : String :=
  match plat with
  | .win32 => ⟨s.data.map (fun c => if c = '/' then '\\' else c)⟩
  | _ => ⟨s.data.map (fun c => if c = '\\' then '/' else c)⟩

/-- Node `path.join(a, b)` restricted to what the launcher relies on: empty
segments are ignored, otherwise the segments are glued with the native
separator (separator normalization is done by `fixSlashes` afterwards). -/
def joinPath (plat : Platform) (a b : String) : String :=
  if a = "" then b
  else if b = "" then a
  else a ++ ⟨[plat.sep]⟩ ++ b

/-- Node `path.posix.join(a, b)`: as `joinPath` but always with a forward
slash. -/
def posixJoin (a b : String) : String :=
  if a = "" then b
  else if b = "" then a
  else a ++ "/" ++ b

/-- Row of the exec-mapping list (`ExecMapping` in the shared interfaces):
translation from a Windows-relative path to optional native equivalents. -/
structure ExecMapping where
  win32 : String
  linux : Option String := none
  darwin : Option String := none
deriving DecidableEq, Repr

/-- JS `a || b` on an optional string field: the field when present and
non-empty, otherwise the fallback. -/
def orElseStr (o : Option String) (d : String) : String :=
  match o with
  | some s => if s = "" then d else s
  | none => d

/-- Batch-script rewrite stage of `resolveApplicationPath`: on non-Windows
platforms a path ending in the exact string `.bat` has that suffix replaced
by `.command`; otherwise the path is unchanged. -/
def batRewrite (plat : Platform) (filePath : String) : String :=
  if plat ≠ .win32 ∧ strEndsWith filePath ".bat" then
    dropRightStr filePath 4 ++ ".command"
  else filePath

/-- Exec-mapping scan of `resolveApplicationPath`: walk the list in order and
stop at the first row whose `win32` field equals the path; substitute the
OS field with fallback to `win32` on Linux and macOS, and leave the path
unchanged on any other platform (the switch has no matching case there). -/
def applyExecMappings (plat : Platform) : List ExecMapping → String → String
  | [], filePath => filePath
  | m :: rest, filePath =>
      if m.win32 = filePath then
        match plat with
        | .linux => orElseStr m.linux m.win32
        | .darwin => orElseStr m.darwin m.win32
        | _ => filePath
      else applyExecMappings plat rest filePath

/-- Embedding of `GameLauncher.resolveApplicationPath`: batch-script rewrite,
then (on non-Windows platforms when `native` is set) the exec-mapping scan,
then join onto the collection root and normalize separators. -/
def resolveApplicationPath (relativePath fpPath : String)
    (execMappings : List ExecMapping) (native : Bool) (plat : Platform) :
    String :=
  let filePath := batRewrite plat relativePath
  let filePath :=
    if plat ≠ .win32 ∧ native then applyExecMappings plat execMappings filePath
    else filePath
  fixSlashes plat (joinPath plat fpPath filePath)

/-! ## Command mapper -/

/-- Rule of the command-mapping table (`ICommandMapping` in the shared
mapping interfaces): extension set, command template and assembly flags. -/
structure ICommandMapping where
  extensions : List String
  command : String
  includeFilename : Bool
  includeArgs : Bool
  setCwdToFileDir : Option Bool := none
deriving DecidableEq, Repr

/-- Command-mapping table (`IAppCommandsMappingData`): a default rule plus an
ordered list of extension rules.  The default is optional here because the
table is loaded from JSON at startup and the mapper must fail on a table
whose default rule is absent. -/
structure IAppCommandsMappingData where
  defaultMapping : Option ICommandMapping
  commandsMapping : List ICommandMapping
deriving DecidableEq, Repr

/-- Resolved command (`Command` in the command-mapping module): final command
string plus working directory (empty string standing for the ambient one). -/
structure Command where
  command : String
  cwd : String
deriving DecidableEq, Repr

/-- Lowercase of one ASCII character (structural, so that proofs can
evaluate it). -/
def charLower (c : Char) : Char :=
  if 65 ≤ c.toNat ∧ c.toNat ≤ 90 then Char.ofNat (c.toNat + 32) else c

/-- Lowercase of a string, character by character. -/
def strLower (s : String) : String :=
  ⟨s.data.map charLower⟩

/-- Lowercase extension of a path, without the dot (empty when the filename
has no dot). -/
def getExtensionLower (p : String) : String :=
  let fn := (getFilename p).data
  let revExt := fn.reverse.takeWhile (fun c => c ≠ '.')
  if revExt.length = fn.length then ""
  else strLower (String.mk revExt.reverse)

/-- Shell quoting of the path, per OS: on non-Windows escape each space with
a backslash and never quote; on Windows convert forward slashes to
backslashes and wrap in double quotes exactly when the path has a space. -/
def quotePath (plat : Platform) (p : String) : String :=
  match plat with
  | .win32 =>
      let q := fixSlashes .win32 p
      if q.data.contains ' ' then "\"" ++ q ++ "\"" else q
  | _ => ⟨p.data.flatMap (fun c => if c = ' ' then ['\\', ' '] else [c])⟩

/-- Directory part of a path: everything before the filename component. -/
def dirnameOf (p : String) : String :=
  dropRightStr p (getFilename p).data.length

/-- Command template of the OS compatibility layer used by the
named-executable override (observed in the command-mapping tests). -/
def wineCommand : String := "flatpak run com.retro_exo.wine"

/-- Assemble the command string from its non-empty parts, separated by single
spaces, so it never has leading, trailing or doubled whitespace. -/
def assembleCommand (parts : List String) : String :=
  String.intercalate " " (parts.filter (fun s => s ≠ ""))

/-- Modelled from the spec: `createCommand` (from the shared command-mapping
module, absent from the provided sources).  Fails when the table has no
usable default rule; otherwise selects the first extension rule matching the
lowercase extension (else the default rule), applies the named-executable
override on non-Windows platforms (forcing the working directory to the
file directory and invocation through the compatibility layer), quotes the
path per OS, and assembles command plus optional filename and arguments. -/
def createCommand (appPath appArgs : String) (m : IAppCommandsMappingData)
    (plat : Platform) : Except String Command :=
  match m.defaultMapping with
  | none => .error "missing default mapping"
  | some dflt =>
      let ext := getExtensionLower appPath
      let rule :=
        (m.commandsMapping.find? (fun r => r.extensions.contains ext)).getD dflt
      let quoted := quotePath plat appPath
      if plat ≠ .win32 ∧ strLower (getFilename appPath) = "foobar2000.exe" then
        .ok { command := assembleCommand [wineCommand, quoted, appArgs],
              cwd := dirnameOf appPath }
      else
        .ok { command :=
                assembleCommand
                  [rule.command,
                   if rule.includeFilename then quoted else "",
                   if rule.includeArgs then appArgs else ""],
              cwd := if rule.setCwdToFileDir = some true then dirnameOf appPath
                     else "" }

/-! ## Launch orchestrator

The orchestrator is embedded as a trace semantics.  Spawning a process,
writing a log line, observing a process exit, opening a dialog and opening a
path externally are effects; an environment decides, per spawned process,
whether the OS refuses to create it (a spawn error) and, per external-open
request, whether the capability fails.  Each launch function returns the
effects emitted while the call runs (`start`), the extra effects an awaiter
of the returned promise observes before it settles (`rest`), and the
settlement of that promise. -/

/-- Error carried by a rejected promise of the launcher: either the command
mapper threw (no usable default rule) or the OS refused to create the
process. -/
inductive JsError where
  | configError (msg : String)
  | spawnError (msg : String)
deriving DecidableEq, Repr

/-- Options of an invoked message box (the fields the launcher fills in). -/
structure MessageBoxOptions where
  mtype : String
  title : String
  message : String
  buttons : List String
deriving DecidableEq, Repr

/-- Observable effect of the launcher. -/
inductive Effect where
  | spawn (cmd : Command)
  | logE (source tag : String)
  | exited (pid : Nat)
  | dialog (opts : MessageBoxOptions)
  | openExternal (path : String)
deriving DecidableEq, Repr

/-- Environment: the nth spawned process spawn-errors with the given message
(or starts normally), and the nth external-open request fails with the given
message (or succeeds).  Rejection reasons are modelled as their display
text. -/
structure Env where
  spawnFails : Nat → Option String
  openExtFails : Nat → Option String

/-- Settlement of a promise: resolved, or rejected with an error. -/
inductive Settled where
  | resolved
  | rejected (e : JsError)
deriving DecidableEq, Repr

/-- Result of one launcher entry point: spawn and external-open counters
after the synchronous part, effects emitted while the call runs, effects an
awaiter observes before the returned promise settles, and the settlement. -/
structure LaunchResult where
  k : Nat
  oe : Nat
  start : List Effect
  rest : List Effect
  outcome : Settled
deriving DecidableEq, Repr

/-- Log source used by every launcher log line. -/
def logSource : String := "Game Launcher"

/-- Game record (`IGameInfo`), restricted to the fields the launcher reads. -/
structure IGameInfo where
  title : String
  applicationPath : String
  launchCommand : String
  placeholder : Bool
deriving DecidableEq, Repr

/-- Additional application (`IAdditionalApplicationInfo`), restricted to the
fields the launcher reads. -/
structure IAdditionalApplicationInfo where
  applicationPath : String
  launchCommand : String
  autoRunBefore : Bool
  waitForExit : Bool
deriving DecidableEq, Repr

/-- Data part of `LaunchGameOpts` (the dialog and external-open capabilities
are effects of the semantics, the OS identity is a parameter). -/
structure LaunchGameOpts where
  fpPath : String
  execMappings : List ExecMapping
  mappings : IAppCommandsMappingData
  game : IGameInfo
  addApps : Option (List IAdditionalApplicationInfo)
  native : Bool
deriving Repr

/-- Data part of `LaunchAddAppOpts`. -/
structure LaunchAddAppOpts where
  fpPath : String
  execMappings : List ExecMapping
  mappings : IAppCommandsMappingData
  addApp : IAdditionalApplicationInfo
  native : Bool
deriving Repr

/-- Embedding of `GameLauncher.launchCommand`: build the command (a thrown
mapper error surfaces to the (async) caller as a rejection), spawn it,
log the launch; the returned promise resolves once the process exits and
rejects on a spawn error. -/
def launchCommand (plat : Platform) (env : Env) (k oe : Nat)
    (appPath appArgs : String) (mappings : IAppCommandsMappingData) :
    LaunchResult :=
  match createCommand appPath appArgs mappings plat with
  | .error e => ⟨k, oe, [], [], .rejected (.configError e)⟩
  | .ok cmd =>
      let start := [.spawn cmd, .logE logSource "Launch command"]
      match env.spawnFails k with
      | some msg => ⟨k + 1, oe, start, [], .rejected (.spawnError msg)⟩
      | none => ⟨k + 1, oe, start, [.exited k], .resolved⟩

/-- Embedding of `handleSpecialApplicationPath` fused with
`GameLauncher.launchAdditionalApplication`: the two legacy pseudo-paths are
checked by exact match first and spawn nothing; any other path is resolved
and delegated to `launchCommand`, whose promise is returned. -/
def launchAdditionalApplication (plat : Platform) (env : Env) (k oe : Nat)
    (opts : LaunchAddAppOpts) : LaunchResult :=
  if opts.addApp.applicationPath = ":message:" then
    ⟨k, oe,
     [.dialog ⟨"info", "About This Game", opts.addApp.launchCommand, ["Ok"]⟩],
     [], .resolved⟩
  else if opts.addApp.applicationPath = ":extras:" then
    let folderPath :=
      fixSlashes plat
        (joinPath plat opts.fpPath (posixJoin "Extras" opts.addApp.launchCommand))
    let effs :=
      [.openExternal folderPath] ++
        match env.openExtFails oe with
        | some msg =>
            [.dialog ⟨"error", "Failed to Open Extras",
                      msg ++ "\nPath: " ++ folderPath, ["Ok"]⟩]
        | none => []
    ⟨k, oe + 1, effs, [], .resolved⟩
  else
    launchCommand plat env k oe
      (resolveApplicationPath opts.addApp.applicationPath opts.fpPath
        opts.execMappings opts.native plat)
      opts.addApp.launchCommand opts.mappings

/-- Pre-run loop of `launchGame`: walk the additional applications in
declared order; launch exactly those flagged `autoRunBefore`; await a
launch flagged `waitForExit` (appending the effects the awaiter observes
and aborting the loop on rejection, which the surrounding async function
propagates); start but do not await the others. -/
def launchGameAddApps (plat : Platform) (env : Env)
    (base : IAdditionalApplicationInfo → LaunchAddAppOpts) :
    List IAdditionalApplicationInfo → Nat → Nat →
    Nat × Nat × List Effect × Option JsError
  | [], k, oe => (k, oe, [], none)
  | a :: rest, k, oe =>
      if a.autoRunBefore then
        let r := launchAdditionalApplication plat env k oe (base a)
        if a.waitForExit then
          match r.outcome with
          | .rejected e => (r.k, r.oe, r.start ++ r.rest, some e)
          | .resolved =>
              let (k', oe', t, err) := launchGameAddApps plat env base rest r.k r.oe
              (k', oe', r.start ++ r.rest ++ t, err)
        else
          let (k', oe', t, err) := launchGameAddApps plat env base rest r.k r.oe
          (k', oe', r.start ++ t, err)
      else launchGameAddApps plat env base rest k oe

/-- Add-app options `launchGame` builds for each pre-run entry. -/
def addAppOptsOf (opts : LaunchGameOpts) (a : IAdditionalApplicationInfo) :
    LaunchAddAppOpts :=
  ⟨opts.fpPath, opts.execMappings, opts.mappings, a, opts.native⟩

/-- Embedding of `GameLauncher.launchGame`: no-op on a placeholder record;
otherwise run the pre-run loop, resolve the game path, build the command
(logging and returning on a mapper error), and spawn the main process
without awaiting its exit. -/
def launchGame (plat : Platform) (env : Env) (opts : LaunchGameOpts) :
    LaunchResult :=
  if opts.game.placeholder then ⟨0, 0, [], [], .resolved⟩
  else
    let (k, oe, preTrace, err) :=
      launchGameAddApps plat env (addAppOptsOf opts) (opts.addApps.getD []) 0 0
    match err with
    | some e => ⟨k, oe, preTrace, [], .rejected e⟩
    | none =>
        let gamePath :=
          resolveApplicationPath opts.game.applicationPath opts.fpPath
            opts.execMappings opts.native plat
        match createCommand gamePath opts.game.launchCommand opts.mappings plat with
        | .error _ =>
            ⟨k, oe, preTrace ++ [.logE logSource "Launch Game failed"], [],
             .resolved⟩
        | .ok cmd =>
            ⟨k + 1, oe, preTrace ++ [.spawn cmd, .logE logSource "Launch Game"],
             [], .resolved⟩

/-- Setup path computed by `launchGameSetup`: JS
`applicationPath.replace(getFilename(applicationPath), "install.command")`,
which replaces the first occurrence of the filename string. -/
def setupPathOf (applicationPath : String) : String :=
  replaceFirst applicationPath (getFilename applicationPath) "install.command"

/-- Embedding of `GameLauncher.launchGameSetup`: rewrite the application
path via `setupPathOf`, resolve it, build the command (a thrown mapper
error rejects the async function) and spawn it fire-and-forget: the
process is not awaited, so a spawn error is only ever logged by the
lifecycle relay, never carried by the returned promise. -/
def launchGameSetup (plat : Platform) (env : Env) (opts : LaunchGameOpts) :
    LaunchResult :=
  let setupPath := setupPathOf opts.game.applicationPath
  let gamePath :=
    resolveApplicationPath setupPath opts.fpPath opts.execMappings opts.native plat
  match createCommand gamePath opts.game.launchCommand opts.mappings plat with
  | .error e => ⟨0, 0, [], [], .rejected (.configError e)⟩
  | .ok cmd =>
      ⟨1, 0, [.spawn cmd, .logE logSource "Launch Game Setup"], [], .resolved⟩

/-! ## String lemmas -/

theorem strData_append (a b : String) : (a ++ b).data = a.data ++ b.data := rfl

theorem strEndsWith_append_self (s t : String) :
    strEndsWith (s ++ t) t = true := by
  simp [strEndsWith, strData_append, List.isSuffixOf_iff_suffix]

theorem strEndsWith_append_ne (s t u : String)
    (hlen : t.data.length = u.data.length) (hne : t.data ≠ u.data) :
    strEndsWith (s ++ u) t = false := by
  have h : ¬ t.data <:+ (s.data ++ u.data) := by
    intro h
    have hu : u.data <:+ (s.data ++ u.data) := List.suffix_append s.data u.data
    rcases List.suffix_or_suffix_of_suffix h hu with h1 | h1
    · exact hne (h1.eq_of_length hlen)
    · exact hne ((h1.eq_of_length hlen.symm).symm)
  show (t.data.isSuffixOf (s.data ++ u.data)) = false
  exact Bool.eq_false_iff.mpr fun hc => h (List.isSuffixOf_iff_suffix.mp hc)

theorem dropRightStr_append (s t : String) :
    dropRightStr (s ++ t) t.data.length = s := by
  show String.mk (((s ++ t).data).take ((s ++ t).data.length - t.data.length)) = s
  rw [strData_append, List.length_append, Nat.add_sub_cancel, List.take_left]

theorem fixSlashes_nonwin_id (plat : Platform) (s : String)
    (hplat : plat ≠ .win32) (hs : ∀ c ∈ s.data, c ≠ '\\') :
    fixSlashes plat s = s := by
  have hmap : s.data.map (fun c => if c = '\\' then '/' else c) = s.data := by
    rw [List.map_congr_left (g := id) (fun c hc => by simp [hs c hc])]
    exact List.map_id s.data
  cases plat with
  | win32 => exact absurd rfl hplat
  | linux => show String.mk (s.data.map _) = s; rw [hmap]
  | darwin => show String.mk (s.data.map _) = s; rw [hmap]
  | otherUnix => show String.mk (s.data.map _) = s; rw [hmap]

/-! ## Path resolver claims -/

theorem joinPath_empty_left (plat : Platform) (b : String) :
    joinPath plat "" b = b := by simp [joinPath]

/-- C10: the batch-script rewrite in `resolveApplicationPath` is
case-sensitive: a path whose suffix is a non-lowercase variant such as
`.BAT` or `.Bat` is left unrewritten on every OS, the result being only the
root join plus separator normalization that every path undergoes. -/
theorem resolveApplicationPath_batCaseSensitive :
    ∀ (s fp : String) (native : Bool) (plat : Platform),
      resolveApplicationPath (s ++ ".BAT") fp [] native plat =
          fixSlashes plat (joinPath plat fp (s ++ ".BAT")) ∧
      resolveApplicationPath (s ++ ".Bat") fp [] native plat =
          fixSlashes plat (joinPath plat fp (s ++ ".Bat")) := by
  intro s fp native plat
  have h1 : strEndsWith (s ++ ".BAT") ".bat" = false :=
    strEndsWith_append_ne s ".bat" ".BAT" (by decide) (by decide)
  have h2 : strEndsWith (s ++ ".Bat") ".bat" = false :=
    strEndsWith_append_ne s ".bat" ".Bat" (by decide) (by decide)
  constructor <;> simp [resolveApplicationPath, batRewrite, h1, h2, applyExecMappings]

/-- C5 counterexample: `resolveApplicationPath` is not the identity function
on Windows: a forward slash is normalized to the native backslash, so the
output differs from the input path. -/
theorem resolveApplicationPath_win32_not_id :
    resolveApplicationPath "a/b.bat" "" [] false .win32 = "a\\b.bat" ∧
    ("a\\b.bat" : String) ≠ "a/b.bat" := by decide

/-- C5 amended: with an empty collection root, a backslash-free path ending
in `.bat` resolves on every non-Windows OS to the same path with its final
four characters replaced by `.command` (with `native` off, under any
exec-mapping list); on Windows the `.bat` extension is never rewritten and
the result is only the root join plus slash normalization of the input. -/
theorem resolveApplicationPath_batRewrite_spec :
    (∀ (s : String) (ms : List ExecMapping) (plat : Platform),
        plat ≠ .win32 → (∀ c ∈ s.data, c ≠ '\\') →
        resolveApplicationPath (s ++ ".bat") "" ms false plat =
          s ++ ".command") ∧
    (∀ (p fp : String) (ms : List ExecMapping) (native : Bool),
        resolveApplicationPath p fp ms native .win32 =
          fixSlashes .win32 (joinPath .win32 fp p)) := by
  constructor
  · intro s ms plat hplat hs
    have hbat : batRewrite plat (s ++ ".bat") = s ++ ".command" := by
      have he := strEndsWith_append_self s ".bat"
      have hd : dropRightStr (s ++ ".bat") 4 = s := by
        have := dropRightStr_append s ".bat"
        simpa using this
      simp [batRewrite, he, hplat, hd]
    simp only [resolveApplicationPath, hbat, hplat, Bool.false_eq_true,
      and_false, if_neg, ne_eq, not_false_iff, false_and, if_false,
      joinPath_empty_left]
    apply fixSlashes_nonwin_id plat _ hplat
    intro c hc
    rw [strData_append] at hc
    rcases List.mem_append.mp hc with h | h
    · exact hs c h
    · have hcmd : ∀ c ∈ (".command" : String).data, c ≠ '\\' := by decide
      exact hcmd c h
  · intro p fp ms native
    simp [resolveApplicationPath, batRewrite]

/-- C5 witness: a concrete backslash-free `.bat` path on Linux. -/
theorem resolveApplicationPath_batRewrite_spec_witness :
    resolveApplicationPath ("dir/game" ++ ".bat") "" [] false .linux =
      "dir/game" ++ ".command" :=
  resolveApplicationPath_batRewrite_spec.1 "dir/game" [] .linux
    (by decide) (by decide)

theorem applyExecMappings_linux_find (ms : List ExecMapping) (p : String) :
    applyExecMappings .linux ms p =
      match ms.find? (fun m => m.win32 = p) with
      | some m => orElseStr m.linux m.win32
      | none => p := by
  induction ms with
  | nil => rfl
  | cons m rest ih =>
      by_cases h : m.win32 = p
      · simp [applyExecMappings, List.find?_cons, h]
      · simp [applyExecMappings, List.find?_cons, h, ih]

theorem applyExecMappings_darwin_find (ms : List ExecMapping) (p : String) :
    applyExecMappings .darwin ms p =
      match ms.find? (fun m => m.win32 = p) with
      | some m => orElseStr m.darwin m.win32
      | none => p := by
  induction ms with
  | nil => rfl
  | cons m rest ih =>
      by_cases h : m.win32 = p
      · simp [applyExecMappings, List.find?_cons, h]
      · simp [applyExecMappings, List.find?_cons, h, ih]

/-- C4: with `native` on and a non-Windows OS, the exec-mapping list is
scanned in order for the first row whose `win32` field equals the (possibly
bat-rewritten) path, that row's `linux` (on Linux) or `darwin` (on macOS)
field is substituted with fallback to `win32` when the field is empty or
absent, the scan stopping at the first match; with `native` off no
substitution happens on any OS; and on the concrete scenario row
`win32 = A, linux = B` the resolved path ends in `B` with `native` on and
in `A` with `native` off. -/
theorem resolveApplicationPath_execMappings :
    (∀ (rel fp : String) (ms : List ExecMapping),
        resolveApplicationPath rel fp ms true .linux =
          fixSlashes .linux (joinPath .linux fp
            (match ms.find? (fun m => m.win32 = batRewrite .linux rel) with
             | some m => orElseStr m.linux m.win32
             | none => batRewrite .linux rel))) ∧
    (∀ (rel fp : String) (ms : List ExecMapping),
        resolveApplicationPath rel fp ms true .darwin =
          fixSlashes .darwin (joinPath .darwin fp
            (match ms.find? (fun m => m.win32 = batRewrite .darwin rel) with
             | some m => orElseStr m.darwin m.win32
             | none => batRewrite .darwin rel))) ∧
    (∀ (rel fp : String) (ms : List ExecMapping) (plat : Platform),
        resolveApplicationPath rel fp ms false plat =
          fixSlashes plat (joinPath plat fp (batRewrite plat rel))) ∧
    (∀ (d : String), orElseStr (some "") d = d ∧ orElseStr none d = d) ∧
    strEndsWith
      (resolveApplicationPath "A" "/fp" [⟨"A", some "B", none⟩] true .linux)
      "B" = true ∧
    strEndsWith
      (resolveApplicationPath "A" "/fp" [⟨"A", some "B", none⟩] false .linux)
      "A" = true := by
  refine ⟨?_, ?_, ?_, ?_, by decide, by decide⟩
  · intro rel fp ms
    simp [resolveApplicationPath, applyExecMappings_linux_find]
  · intro rel fp ms
    simp [resolveApplicationPath, applyExecMappings_darwin_find]
  · intro rel fp ms plat
    simp [resolveApplicationPath]
  · intro d
    exact ⟨rfl, rfl⟩

/-! ## Orchestrator claims -/

/-- C8: launching a placeholder game record is a no-op: no effect is emitted
(no process spawned, no log entry, no dialog), the spawn counter is
untouched and the returned promise resolves immediately. -/
theorem launchGame_placeholder_noop :
    ∀ (plat : Platform) (env : Env) (opts : LaunchGameOpts),
      opts.game.placeholder = true →
      launchGame plat env opts = ⟨0, 0, [], [], .resolved⟩ := by
  intro plat env opts h
  simp [launchGame, h]

/-- C8 witness: a concrete placeholder launch. -/
theorem launchGame_placeholder_noop_witness :
    launchGame .linux ⟨fun _ => none, fun _ => none⟩
      ⟨"/fp", [], ⟨some ⟨[], "", true, true, none⟩, []⟩,
       ⟨"G", "game.bat", "", true⟩, none, false⟩ =
      ⟨0, 0, [], [], .resolved⟩ :=
  launchGame_placeholder_noop .linux ⟨fun _ => none, fun _ => none⟩ _ rfl

/-- C6: an additional application whose path is exactly `:message:` spawns
no process and performs no resolution: the one and only effect is a dialog
with the launch-command text as message body, title About This Game and a
single Ok button, and the promise resolves immediately. -/
theorem launchAdditionalApplication_message :
    ∀ (plat : Platform) (env : Env) (k oe : Nat) (opts : LaunchAddAppOpts),
      opts.addApp.applicationPath = ":message:" →
      launchAdditionalApplication plat env k oe opts =
        ⟨k, oe,
         [.dialog ⟨"info", "About This Game", opts.addApp.launchCommand,
            ["Ok"]⟩],
         [], .resolved⟩ := by
  intro plat env k oe opts h
  simp [launchAdditionalApplication, h]

/-- C6 witness: the scenario with launch command Hello. -/
theorem launchAdditionalApplication_message_witness :
    launchAdditionalApplication .linux ⟨fun _ => none, fun _ => none⟩ 0 0
      ⟨"/fp", [], ⟨some ⟨[], "", true, true, none⟩, []⟩,
       ⟨":message:", "Hello", true, false⟩, false⟩ =
      ⟨0, 0, [.dialog ⟨"info", "About This Game", "Hello", ["Ok"]⟩], [],
       .resolved⟩ :=
  launchAdditionalApplication_message .linux ⟨fun _ => none, fun _ => none⟩
    0 0 _ rfl

/-- C7: an additional application whose path is exactly `:extras:` spawns no
process; it resolves the collection root joined (posix-style) with `Extras`
and the launch command and emits an external-open effect on it; when that
capability fails, it additionally opens an error dialog whose message
contains the failure text and the resolved path. -/
theorem launchAdditionalApplication_extras :
    ∀ (plat : Platform) (env : Env) (k oe : Nat) (opts : LaunchAddAppOpts),
      opts.addApp.applicationPath = ":extras:" →
      (env.openExtFails oe = none →
        launchAdditionalApplication plat env k oe opts =
          ⟨k, oe + 1,
           [.openExternal (fixSlashes plat (joinPath plat opts.fpPath
              (posixJoin "Extras" opts.addApp.launchCommand)))],
           [], .resolved⟩) ∧
      (∀ msg, env.openExtFails oe = some msg →
        launchAdditionalApplication plat env k oe opts =
          ⟨k, oe + 1,
           [.openExternal (fixSlashes plat (joinPath plat opts.fpPath
              (posixJoin "Extras" opts.addApp.launchCommand))),
            .dialog ⟨"error", "Failed to Open Extras",
              msg ++ "\nPath: " ++
                fixSlashes plat (joinPath plat opts.fpPath
                  (posixJoin "Extras" opts.addApp.launchCommand)),
              ["Ok"]⟩],
           [], .resolved⟩) := by
  intro plat env k oe opts h
  constructor
  · intro hok
    simp [launchAdditionalApplication, h, hok]
  · intro msg hfail
    simp [launchAdditionalApplication, h, hfail]

/-- C7 witness: a concrete extras entry whose external open fails. -/
theorem launchAdditionalApplication_extras_witness :
    launchAdditionalApplication .linux
        ⟨fun _ => none, fun _ => some "EACCES"⟩ 0 0
        ⟨"/fp", [], ⟨some ⟨[], "", true, true, none⟩, []⟩,
         ⟨":extras:", "Manual.pdf", false, false⟩, false⟩ =
      ⟨0, 1,
       [.openExternal "/fp/Extras/Manual.pdf",
        .dialog ⟨"error", "Failed to Open Extras",
          "EACCES" ++ "\nPath: " ++ "/fp/Extras/Manual.pdf", ["Ok"]⟩],
       [], .resolved⟩ := by
  have h := (launchAdditionalApplication_extras .linux
      ⟨fun _ => none, fun _ => some "EACCES"⟩ 0 0
      ⟨"/fp", [], ⟨some ⟨[], "", true, true, none⟩, []⟩,
       ⟨":extras:", "Manual.pdf", false, false⟩, false⟩ rfl).2 "EACCES" rfl
  simpa using h

/-! ## Pre-run ordering (claim C2) -/

/-- Command the launcher builds for a path and argument string, under a
table whose default rule is present (the failure default is never reached
then). -/
def builtCommand (plat : Platform) (fp : String) (ms : List ExecMapping)
    (native : Bool) (m : IAppCommandsMappingData) (p args : String) :
    Command :=
  (createCommand (resolveApplicationPath p fp ms native plat) args m
      plat).toOption.getD ⟨"", ""⟩

theorem createCommand_eq_ok (p a : String) (m : IAppCommandsMappingData)
    (plat : Platform) (d : ICommandMapping)
    (h : m.defaultMapping = some d) :
    createCommand p a m plat =
      .ok ((createCommand p a m plat).toOption.getD ⟨"", ""⟩) := by
  simp only [createCommand, h]
  split <;> rfl

/-- Effects claim C2 predicts for the pre-run phase: the add-apps flagged
`autoRunBefore` each contribute, in declared order, their spawn and launch
log, followed by an exit observation exactly when flagged `waitForExit`. -/
def claimedPreRunEffects (plat : Platform) (opts : LaunchGameOpts) :
    List IAdditionalApplicationInfo → Nat → List Effect
  | [], _ => []
  | a :: rest, k =>
      [.spawn (builtCommand plat opts.fpPath opts.execMappings opts.native
          opts.mappings a.applicationPath a.launchCommand),
       .logE logSource "Launch command"] ++
      (if a.waitForExit then [.exited k] else []) ++
      claimedPreRunEffects plat opts rest (k + 1)

theorem launchGameAddApps_benign (plat : Platform) (env : Env)
    (opts : LaunchGameOpts) (d : ICommandMapping)
    (hd : opts.mappings.defaultMapping = some d)
    (henv : ∀ k, env.spawnFails k = none) :
    ∀ (l : List IAdditionalApplicationInfo) (k : Nat),
      (∀ a ∈ l, a.autoRunBefore = true →
        a.applicationPath ≠ ":message:" ∧ a.applicationPath ≠ ":extras:") →
      launchGameAddApps plat env (addAppOptsOf opts) l k 0 =
        (k + (l.filter (fun a => a.autoRunBefore)).length, 0,
         claimedPreRunEffects plat opts
           (l.filter (fun a => a.autoRunBefore)) k,
         none) := by
  intro l
  induction l with
  | nil => intro k _; simp [launchGameAddApps, claimedPreRunEffects]
  | cons a rest ih =>
      intro k h
      have hrest : ∀ b ∈ rest, b.autoRunBefore = true →
          b.applicationPath ≠ ":message:" ∧ b.applicationPath ≠ ":extras:" :=
        fun b hb => h b (List.mem_cons_of_mem a hb)
      by_cases hauto : a.autoRunBefore = true
      · obtain ⟨hm, he⟩ := h a (List.mem_cons_self a rest) hauto
        have hla : launchAdditionalApplication plat env k 0
            (addAppOptsOf opts a) =
            ⟨k + 1, 0,
             [.spawn (builtCommand plat opts.fpPath opts.execMappings
                opts.native opts.mappings a.applicationPath a.launchCommand),
              .logE logSource "Launch command"],
             [.exited k], .resolved⟩ := by
          simp only [launchAdditionalApplication, addAppOptsOf, launchCommand]
          rw [if_neg hm, if_neg he,
            createCommand_eq_ok _ _ _ _ d hd, henv k]
          rfl
        have hfilter : List.filter (fun x => x.autoRunBefore) (a :: rest) =
            a :: List.filter (fun x => x.autoRunBefore) rest := by
          simp [List.filter_cons, hauto]
        by_cases hwait : a.waitForExit = true
        · simp only [launchGameAddApps, hauto, if_true, hla, hwait,
            ih _ hrest, hfilter]
          simp only [claimedPreRunEffects, hwait, if_true, builtCommand,
            List.length_cons]
          simp [Prod.ext_iff]
          omega
        · simp only [Bool.not_eq_true] at hwait
          simp only [launchGameAddApps, hauto, if_true, hla, hwait,
            Bool.false_eq_true, if_false, ih _ hrest, hfilter]
          simp only [claimedPreRunEffects, hwait, Bool.false_eq_true,
            if_false, builtCommand, List.length_cons]
          simp [Prod.ext_iff]
          omega
      · simp only [Bool.not_eq_true] at hauto
        have hfilter : List.filter (fun x => x.autoRunBefore) (a :: rest) =
            List.filter (fun x => x.autoRunBefore) rest := by
          simp [List.filter_cons, hauto]
        simp [launchGameAddApps, hauto, ih _ hrest, hfilter]

/-- C2: with a usable mapping table and no spawn failures, `launchGame` on a
non-placeholder game launches exactly the additional applications flagged
`autoRunBefore`, in declared list order; an entry flagged `waitForExit`
contributes an exit observation before anything later starts, a non-waited
entry is started but never awaited (no exit observation); the main process
is then spawned and the promise resolves without any exit observation for
it. -/
theorem launchGame_preRun_order :
    ∀ (plat : Platform) (env : Env) (opts : LaunchGameOpts)
      (d : ICommandMapping),
      opts.mappings.defaultMapping = some d →
      (∀ k, env.spawnFails k = none) →
      opts.game.placeholder = false →
      (∀ a ∈ opts.addApps.getD [], a.autoRunBefore = true →
        a.applicationPath ≠ ":message:" ∧ a.applicationPath ≠ ":extras:") →
      launchGame plat env opts =
        ⟨((opts.addApps.getD []).filter (fun a => a.autoRunBefore)).length + 1,
         0,
         claimedPreRunEffects plat opts
           ((opts.addApps.getD []).filter (fun a => a.autoRunBefore)) 0 ++
           [.spawn (builtCommand plat opts.fpPath opts.execMappings
              opts.native opts.mappings opts.game.applicationPath
              opts.game.launchCommand),
            .logE logSource "Launch Game"],
         [], .resolved⟩ := by
  intro plat env opts d hd henv hplace hspecial
  simp only [launchGame, hplace, Bool.false_eq_true, if_false,
    launchGameAddApps_benign plat env opts d hd henv _ 0 hspecial]
  rw [createCommand_eq_ok _ _ _ _ d hd]
  simp [builtCommand, LaunchResult.mk.injEq]

/-- C2 witness: two pre-run entries (first waited, second not), one skipped
entry, then the main game. -/
theorem launchGame_preRun_order_witness :
    launchGame .linux ⟨fun _ => none, fun _ => none⟩
      ⟨"/fp", [], ⟨some ⟨[], "run", true, true, none⟩, []⟩,
       ⟨"G", "game.exe", "-x", false⟩,
       some [⟨"one.exe", "", true, true⟩, ⟨"two.exe", "", true, false⟩,
             ⟨"skip.exe", "", false, false⟩],
       false⟩ =
      ⟨3, 0,
       [.spawn ⟨"run /fp/one.exe", ""⟩, .logE logSource "Launch command",
        .exited 0,
        .spawn ⟨"run /fp/two.exe", ""⟩, .logE logSource "Launch command",
        .spawn ⟨"run /fp/game.exe -x", ""⟩, .logE logSource "Launch Game"],
       [], .resolved⟩ :=
  (launchGame_preRun_order .linux ⟨fun _ => none, fun _ => none⟩
      ⟨"/fp", [], ⟨some ⟨[], "run", true, true, none⟩, []⟩,
       ⟨"G", "game.exe", "-x", false⟩,
       some [⟨"one.exe", "", true, true⟩, ⟨"two.exe", "", true, false⟩,
             ⟨"skip.exe", "", false, false⟩],
       false⟩ ⟨[], "run", true, true, none⟩ rfl (fun _ => rfl) rfl
      (by decide)).trans (by decide)

/-! ## Spawn-error surfacing (claim C1) -/

/-- C1 counterexample: a spawn failure of a pre-run additional application
flagged both `autoRunBefore` and `waitForExit` is awaited without a guard
inside `launchGame`, so the promise returned by `launchGame` rejects with
that spawn error — it does not log-and-resolve. -/
theorem launchGame_waited_spawn_rejects :
    (launchGame .linux ⟨fun _ => some "ENOENT", fun _ => none⟩
        ⟨"", [], ⟨some ⟨[], "run", true, true, none⟩, []⟩,
         ⟨"G", "game.exe", "", false⟩,
         some [⟨"util.exe", "", true, true⟩], false⟩).outcome =
      .rejected (.spawnError "ENOENT") := by decide

theorem launchGameAddApps_err_none (plat : Platform) (env : Env)
    (base : IAdditionalApplicationInfo → LaunchAddAppOpts) :
    ∀ (l : List IAdditionalApplicationInfo) (k oe : Nat),
      (∀ a ∈ l, a.autoRunBefore = true → a.waitForExit = false) →
      (launchGameAddApps plat env base l k oe).2.2.2 = none := by
  intro l
  induction l with
  | nil => intro k oe _; rfl
  | cons a rest ih =>
      intro k oe h
      have hrest : ∀ b ∈ rest, b.autoRunBefore = true → b.waitForExit = false :=
        fun b hb => h b (List.mem_cons_of_mem a hb)
      by_cases hauto : a.autoRunBefore = true
      · have hwait : a.waitForExit = false := h a (List.mem_cons_self a rest) hauto
        rcases heq : launchGameAddApps plat env base rest
            (launchAdditionalApplication plat env k oe (base a)).k
            (launchAdditionalApplication plat env k oe (base a)).oe
          with ⟨k', oe', t, err⟩
        have herr := ih (launchAdditionalApplication plat env k oe (base a)).k
          (launchAdditionalApplication plat env k oe (base a)).oe hrest
        rw [heq] at herr
        simp [launchGameAddApps, hauto, hwait, heq]
        exact herr
      · simp only [Bool.not_eq_true] at hauto
        simp [launchGameAddApps, hauto, ih _ _ hrest]

/-- C1 amended: the promise of `launchCommand` rejects with the spawn error
when the OS refuses to create the process; `launchGame` resolves for every
environment (spawn failures of the main process and of non-awaited pre-run
entries included) provided no pre-run entry is flagged both `autoRunBefore`
and `waitForExit`; `launchGameSetup` never rejects with a spawn error; but
a spawn failure of a pre-run entry flagged `autoRunBefore` and
`waitForExit` propagates and rejects the promise of `launchGame`. -/
theorem launch_spawnError_surfacing :
    (∀ (plat : Platform) (env : Env) (k oe : Nat) (path args : String)
       (m : IAppCommandsMappingData) (d : ICommandMapping) (msg : String),
        m.defaultMapping = some d → env.spawnFails k = some msg →
        (launchCommand plat env k oe path args m).outcome =
          .rejected (.spawnError msg)) ∧
    (∀ (plat : Platform) (env : Env) (opts : LaunchGameOpts),
        (∀ a ∈ opts.addApps.getD [], a.autoRunBefore = true →
          a.waitForExit = false) →
        (launchGame plat env opts).outcome = .resolved) ∧
    (∀ (plat : Platform) (env : Env) (opts : LaunchGameOpts) (msg : String),
        (launchGameSetup plat env opts).outcome ≠
          .rejected (.spawnError msg)) ∧
    (∀ (plat : Platform) (env : Env) (fp : String) (ms : List ExecMapping)
       (m : IAppCommandsMappingData) (d : ICommandMapping)
       (game : IGameInfo) (app : IAdditionalApplicationInfo)
       (native : Bool) (msg : String),
        m.defaultMapping = some d → game.placeholder = false →
        app.applicationPath ≠ ":message:" →
        app.applicationPath ≠ ":extras:" →
        app.autoRunBefore = true → app.waitForExit = true →
        env.spawnFails 0 = some msg →
        (launchGame plat env ⟨fp, ms, m, game, some [app], native⟩).outcome =
          .rejected (.spawnError msg)) := by
  refine ⟨?_, ?_, ?_, ?_⟩
  · intro plat env k oe path args m d msg hd hfail
    simp only [launchCommand]
    rw [createCommand_eq_ok _ _ _ _ d hd, hfail]
  · intro plat env opts h
    by_cases hp : opts.game.placeholder = true
    · simp [launchGame, hp]
    · simp only [Bool.not_eq_true] at hp
      rcases heq : launchGameAddApps plat env (addAppOptsOf opts)
          (opts.addApps.getD []) 0 0 with ⟨k, oe, t, err⟩
      have herr := launchGameAddApps_err_none plat env (addAppOptsOf opts)
        (opts.addApps.getD []) 0 0 h
      rw [heq] at herr
      subst herr
      rcases hc : createCommand (resolveApplicationPath
          opts.game.applicationPath opts.fpPath opts.execMappings
          opts.native plat) opts.game.launchCommand opts.mappings plat
        with e | c <;>
        simp only [launchGame, hp, Bool.false_eq_true, if_false, heq, hc]
  · intro plat env opts msg
    rcases hc : createCommand (resolveApplicationPath
        (setupPathOf opts.game.applicationPath) opts.fpPath
        opts.execMappings opts.native plat) opts.game.launchCommand
        opts.mappings plat with e | c <;>
      simp [launchGameSetup, hc]
  · intro plat env fp ms m d game app native msg hd hp hm he hauto hwait hfail
    have hla : launchAdditionalApplication plat env 0 0
        (addAppOptsOf ⟨fp, ms, m, game, some [app], native⟩ app) =
        ⟨1, 0,
         [.spawn (builtCommand plat fp ms native m app.applicationPath
            app.launchCommand),
          .logE logSource "Launch command"],
         [], .rejected (.spawnError msg)⟩ := by
      simp only [launchAdditionalApplication, addAppOptsOf, launchCommand]
      rw [if_neg hm, if_neg he, createCommand_eq_ok _ _ _ _ d hd, hfail]
      rfl
    simp [launchGame, hp, launchGameAddApps, hauto, hwait, hla]

/-- C1 witness: each conjunct of the amended claim at a concrete input. -/
theorem launch_spawnError_surfacing_witness :
    (launchCommand .linux ⟨fun _ => some "EPERM", fun _ => none⟩ 0 0
        "/fp/a.exe" "" ⟨some ⟨[], "run", true, true, none⟩, []⟩).outcome =
      .rejected (.spawnError "EPERM") ∧
    (launchGame .linux ⟨fun _ => some "EPERM", fun _ => none⟩
        ⟨"/fp", [], ⟨some ⟨[], "run", true, true, none⟩, []⟩,
         ⟨"G", "game.exe", "", false⟩,
         some [⟨"one.exe", "", true, false⟩], false⟩).outcome = .resolved ∧
    (launchGameSetup .linux ⟨fun _ => some "EPERM", fun _ => none⟩
        ⟨"/fp", [], ⟨some ⟨[], "run", true, true, none⟩, []⟩,
         ⟨"G", "game.exe", "", false⟩, none, false⟩).outcome ≠
      .rejected (.spawnError "EPERM") ∧
    (launchGame .linux ⟨fun _ => some "EPERM", fun _ => none⟩
        ⟨"/fp", [], ⟨some ⟨[], "run", true, true, none⟩, []⟩,
         ⟨"G", "game.exe", "", false⟩,
         some [⟨"one.exe", "", true, true⟩], false⟩).outcome =
      .rejected (.spawnError "EPERM") :=
  ⟨launch_spawnError_surfacing.1 .linux ⟨fun _ => some "EPERM", fun _ => none⟩
      0 0 "/fp/a.exe" "" ⟨some ⟨[], "run", true, true, none⟩, []⟩
      ⟨[], "run", true, true, none⟩ "EPERM" rfl rfl,
   launch_spawnError_surfacing.2.1 .linux
      ⟨fun _ => some "EPERM", fun _ => none⟩ _ (by decide),
   launch_spawnError_surfacing.2.2.1 .linux
      ⟨fun _ => some "EPERM", fun _ => none⟩ _ "EPERM",
   launch_spawnError_surfacing.2.2.2 .linux
      ⟨fun _ => some "EPERM", fun _ => none⟩ "/fp" []
      ⟨some ⟨[], "run", true, true, none⟩, []⟩ ⟨[], "run", true, true, none⟩
      ⟨"G", "game.exe", "", false⟩ ⟨"one.exe", "", true, true⟩ false "EPERM"
      rfl rfl (by decide) (by decide) rfl rfl rfl⟩

/-! ## Setup launch (claim C3) -/

/-- Commands of the spawn effects of a trace. -/
def spawnedCommands (l : List Effect) : List Command :=
  l.filterMap (fun e => match e with | .spawn c => some c | _ => none)

/-- C3 counterexample: `launchGameSetup` does not replace the filename
component.  JS `replace` substitutes the first occurrence of the filename
string, so for the application path `ab/ab` (whose filename `ab` also
occurs as the directory) the directory is rewritten instead, and the
spawned command references `install.command/ab`, not `ab/install.command`. -/
theorem launchGameSetup_filename_counterexample :
    setupPathOf "ab/ab" = "install.command/ab" ∧
    setupPathOf "ab/ab" ≠ "ab/install.command" ∧
    spawnedCommands (launchGameSetup .linux ⟨fun _ => none, fun _ => none⟩
        ⟨"", [], ⟨some ⟨[], "run", true, true, none⟩, []⟩,
         ⟨"G", "ab/ab", "", false⟩, none, false⟩).start =
      [⟨"run install.command/ab", ""⟩] := by decide

/-- C3 amended: `launchGameSetup` launches the path obtained from the
application path by replacing the first occurrence of its filename string
with `install.command` (the filename component whenever that string does
not occur earlier in the path); given a usable mapping table it resolves,
builds and spawns that path exactly as `launchGame` would its main path,
fire-and-forget: one spawn, no exit observation, and a promise that
resolves regardless of the environment. -/
theorem launchGameSetup_spec :
    (∀ (plat : Platform) (env : Env) (opts : LaunchGameOpts)
       (d : ICommandMapping),
        opts.mappings.defaultMapping = some d →
        launchGameSetup plat env opts =
          ⟨1, 0,
           [.spawn (builtCommand plat opts.fpPath opts.execMappings
              opts.native opts.mappings
              (setupPathOf opts.game.applicationPath)
              opts.game.launchCommand),
            .logE logSource "Launch Game Setup"],
           [], .resolved⟩) ∧
    (∀ (plat : Platform) (env : Env) (opts : LaunchGameOpts)
       (d : ICommandMapping),
        opts.mappings.defaultMapping = some d →
        spawnedCommands (launchGameSetup plat env opts).start =
          spawnedCommands (launchGame plat env
            ⟨opts.fpPath, opts.execMappings, opts.mappings,
             ⟨opts.game.title, setupPathOf opts.game.applicationPath,
              opts.game.launchCommand, false⟩, none, opts.native⟩).start) := by
  have main : ∀ (plat : Platform) (env : Env) (opts : LaunchGameOpts)
      (d : ICommandMapping),
      opts.mappings.defaultMapping = some d →
      launchGameSetup plat env opts =
        ⟨1, 0,
         [.spawn (builtCommand plat opts.fpPath opts.execMappings
            opts.native opts.mappings (setupPathOf opts.game.applicationPath)
            opts.game.launchCommand),
          .logE logSource "Launch Game Setup"],
         [], .resolved⟩ := by
    intro plat env opts d hd
    simp only [launchGameSetup]
    rw [createCommand_eq_ok _ _ _ _ d hd]
    rfl
  refine ⟨main, ?_⟩
  intro plat env opts d hd
  rw [main plat env opts d hd]
  simp only [launchGame, launchGameAddApps]
  rw [createCommand_eq_ok _ _ _ _ d hd]
  simp [spawnedCommands, builtCommand]

/-- C3 witness: a concrete setup launch whose filename occurs only once. -/
theorem launchGameSetup_spec_witness :
    launchGameSetup .linux ⟨fun _ => none, fun _ => none⟩
        ⟨"/fp", [], ⟨some ⟨[], "run", true, true, none⟩, []⟩,
         ⟨"G", "dir/game.bat", "", false⟩, none, false⟩ =
      ⟨1, 0,
       [.spawn ⟨"run /fp/dir/install.command", ""⟩,
        .logE logSource "Launch Game Setup"],
       [], .resolved⟩ :=
  (launchGameSetup_spec.1 .linux ⟨fun _ => none, fun _ => none⟩
      ⟨"/fp", [], ⟨some ⟨[], "run", true, true, none⟩, []⟩,
       ⟨"G", "dir/game.bat", "", false⟩, none, false⟩
      ⟨[], "run", true, true, none⟩ rfl).trans (by decide)

/-! ## Startup loading of the command-mapping table (claim C9) -/

/-- Embedding of `EmptyCommandMapping` from the shared mapping interfaces:
empty command, no extensions, filename and arguments included. -/
def EmptyCommandMapping : ICommandMapping :=
  ⟨[], "", true, true, none⟩

/-- Initial `state.commandMappings` of the backend: the empty-command
default mapping and an empty `commandsMapping` list. -/
def initialCommandMappings : IAppCommandsMappingData :=
  ⟨some EmptyCommandMapping, []⟩

/-- Warning the backend prints when the platform-named mappings file cannot
be read or parsed. -/
def mappingsLoadWarning (fname err : String) : String :=
  "Cannot load mappings file \"" ++ fname ++ "\". " ++ err ++
    ". Check if file exists and have valid values."

/-- Slice of the backend `initialize` function that loads the command
mappings: the result of reading the platform-named JSON file either
replaces the state, or, on a read/parse failure, leaves the state as it
was and emits a console warning; the function is total, so startup
continues either way. -/
def loadCommandMappings (fname : String)
    (readResult : Except String IAppCommandsMappingData)
    (current : IAppCommandsMappingData) :
    IAppCommandsMappingData × List String :=
  match readResult with
  | .ok t => (t, [])
  | .error e => (current, [mappingsLoadWarning fname e])

/-- C9: when the platform-named command-mapping file is missing or
unparseable, initialization emits exactly one warning and leaves the
command-mapping state at the effectively empty table — the empty-command
default mapping plus an empty `commandsMapping` list — and returns rather
than aborting; a successful read replaces the table and warns nothing. -/
theorem loadCommandMappings_degrades :
    ∀ (fname err : String) (t : IAppCommandsMappingData),
      loadCommandMappings fname (.error err) initialCommandMappings =
        (initialCommandMappings, [mappingsLoadWarning fname err]) ∧
      initialCommandMappings =
        ⟨some ⟨[], "", true, true, none⟩, []⟩ ∧
      loadCommandMappings fname (.ok t) initialCommandMappings = (t, []) := by
  intro fname err t
  exact ⟨rfl, rfl, rfl⟩
